import Mathlib

/-!
Verification development for the KubeJS recipe-manager utility
(`kubejs.py`).  The Python source is shallowly embedded: each relevant
function becomes an executable Lean definition over explicit state
(recipe store, file system, parser state), and the behavioural claims
about the program are settled as theorems over those definitions.
-/

set_option autoImplicit false

namespace KubeJS

/-! ## String primitives modelling the Python built-ins used by the source -/

/-- Boolean prefix test on character lists (models the first step of
Python substring search). -/
def listIsPre : List Char → List Char → Bool
  | [], _ => true
  | _ :: _, [] => false
  | a :: as, b :: bs => decide (a = b) && listIsPre as bs

/-- Boolean substring test on character lists: `listIsSub n h` is true
iff `n` occurs contiguously inside `h`.  Models Python `n in h`. -/
def listIsSub (needle : List Char) : List Char → Bool
  | [] => listIsPre needle []
  | c :: rest => listIsPre needle (c :: rest) || listIsSub needle rest

/-- Models the Python substring operator `needle in hay` on `str`. -/
def strContains (hay needle : String) : Bool :=
  listIsSub needle.data hay.data

/-- Models Python `str.lower()` (ASCII case folding). -/
def toLowerStr (s : String) : String :=
  ⟨s.data.map Char.toLower⟩

/-- Drop leading whitespace from a character list. -/
def dropLeadingWs : List Char → List Char
  | [] => []
  | c :: rest => if c.isWhitespace then dropLeadingWs rest else c :: rest

/-- Models Python `str.strip()` (whitespace removed from both ends). -/
def pyStrip (s : String) : String :=
  ⟨dropLeadingWs ((dropLeadingWs s.data.reverse).reverse)⟩

/-- Models Python `str.startswith(pfx)`. -/
def pyStartswith (s pfx : String) : Bool :=
  listIsPre pfx.data s.data

/-- Split a character list at every occurrence of `sep` (Python
`str.split(sep)` with a one-character separator: splitting the empty
string yields one empty field). -/
def splitOnChar (sep : Char) : List Char → List (List Char)
  | [] => [[]]
  | c :: rest =>
    match splitOnChar sep rest with
    | [] => [[c]]
    | g :: gs => if c = sep then [] :: g :: gs else (c :: g) :: gs

/-- Models Python `s.split(',')`. -/
def pySplit (s : String) (sep : Char) : List String :=
  (splitOnChar sep s.data).map (fun l => ⟨l⟩)

/-- Digit value of a character, if it is a decimal digit. -/
def digitVal (c : Char) : Option Nat :=
  if '0' ≤ c ∧ c ≤ '9' then some (c.toNat - 48) else none

/-- Parse an all-digit character list as a natural number (`none` when
empty or containing a non-digit). -/
def parseNatChars (l : List Char) : Option Nat :=
  if l = [] then none
  else
    l.foldl
      (fun acc c =>
        match acc with
        | none => none
        | some n =>
          match digitVal c with
          | none => none
          | some d => some (n * 10 + d))
      (some 0)

/-- Models Python `int(s)` on an already-stripped string: an optional
sign followed by at least one digit, `none` standing for the
`ValueError` path. -/
def pyInt? (s : String) : Option Int :=
  match s.data with
  | '-' :: rest => (parseNatChars rest).map (fun n => -(n : Int))
  | '+' :: rest => (parseNatChars rest).map (fun n => (n : Int))
  | l => (parseNatChars l).map (fun n => (n : Int))

/-! ## Addon data model (§3) -/

/-- An addon entry `{name, url}` as scraped from the wiki or stored in
the addon database file. -/
structure Addon where
  name : String
  url : String
deriving DecidableEq, Repr

/-- `get_fallback_addons` from the source: the built-in fallback list
returned when both the web fetch and the local database fail. -/
def get_fallback_addons : List Addon :=
  [ { name := "KubeJS Create",
      url := "https://kubejs.com/wiki/addons/kubejs-create" },
    { name := "KubeJS Mekanism",
      url := "https://kubejs.com/wiki/addons/kubejs-mekanism" },
    { name := "KubeJS Immersive Engineering",
      url := "https://kubejs.com/wiki/addons/kubejs-immersive-engineering" },
    { name := "KubeJS Thermal",
      url := "https://kubejs.com/wiki/addons/kubejs-thermal" },
    { name := "KubeJS Blood Magic",
      url := "https://kubejs.com/wiki/addons/kubejs-blood-magic" } ]

/-- `is_db_outdated` from the source: the database is outdated when the
timestamp is absent, or `now - timestamp` exceeds the configured maximum
age.  Times are modelled as integers (the source uses `datetime`
arithmetic, which the claims only inspect through this comparison). -/
def is_db_outdated (timestamp : Option Int) (now maxAge : Int) : Bool :=
  match timestamp with
  | none => true
  | some ts => decide (maxAge < now - ts)

/-- Outcome of the single outbound HTTP fetch performed by
`fetch_kubejs_addons`: either the request raised (bad status, transport
error, timeout), or it succeeded and the HTML scan produced the given
addon list. -/
inductive FetchOutcome where
  | failure
  | success (webAddons : List Addon)
deriving DecidableEq, Repr

/-- Result of one addon-cache refresh: the list returned to the caller,
whether a network fetch was attempted, and the list (if any) handed to
`save_addons_to_db` for persistence with a fresh timestamp. -/
structure RefreshResult where
  addons : List Addon
  fetched : Bool
  persisted : Option (List Addon)
deriving DecidableEq, Repr

/-- `fetch_kubejs_addons` from the source, as a function of the loaded
cache state (`addons`, `timestamp` as produced by `load_addons_from_db`),
the current time and configured maximum age, and the fetch outcome.
The source ignores the return value of `save_addons_to_db`; the
`persisted` field records the list passed to it. -/
def fetch_kubejs_addons (addons : List Addon) (timestamp : Option Int)
    (now maxAge : Int) (outcome : FetchOutcome) : RefreshResult :=
  if addons ≠ [] ∧ is_db_outdated timestamp now maxAge = false then
    { addons := addons, fetched := false, persisted := none }
  else
    match outcome with
    | .success webAddons =>
      if webAddons ≠ [] then
        { addons := webAddons, fetched := true, persisted := some webAddons }
      else if addons ≠ [] then
        { addons := addons, fetched := true, persisted := none }
      else
        { addons := get_fallback_addons, fetched := true,
          persisted := some get_fallback_addons }
    | .failure =>
      if addons ≠ [] then
        { addons := addons, fetched := true, persisted := none }
      else
        { addons := get_fallback_addons, fetched := true,
          persisted := some get_fallback_addons }

/-! ## Wiki scanner (`KubeJSAddonParser`, §4.3)

The Python class reacts to the tag/text event stream produced by
`html.parser.HTMLParser.feed`.  The embedding works at that event level:
an `HtmlEvent` is one parser callback, and the three `handle_*` methods
become state transformers over `ParserState`. -/

/-- One callback of Python's `html.parser.HTMLParser`. -/
inductive HtmlEvent where
  | startTag (tag : String) (attrs : List (String × String))
  | endTag (tag : String)
  | text (txt : String)
deriving DecidableEq, Repr

/-- The mutable fields of `KubeJSAddonParser`. -/
structure ParserState where
  addons : List Addon
  in_main : Bool
  current_tag : Option String
  current_attrs : Option (List (String × String))
  current_data : String
deriving DecidableEq, Repr

/-- The `__init__` state of `KubeJSAddonParser`. -/
def initParserState : ParserState :=
  { addons := [], in_main := false, current_tag := none,
    current_attrs := none, current_data := "" }

/-- Models `'k' in dict(attrs)`. -/
def hasKey (attrs : List (String × String)) (k : String) : Bool :=
  attrs.any (fun p => p.1 == k)

/-- Models `dict(attrs)['k']`: with duplicate keys, Python's `dict`
keeps the last value, hence the left fold. -/
def getAttr (attrs : List (String × String)) (k : String) : Option String :=
  attrs.foldl (fun acc p => if p.1 = k then some p.2 else acc) none

/-- `KubeJSAddonParser.handle_starttag`. -/
def handle_starttag (s : ParserState) (tag : String)
    (attrs : List (String × String)) : ParserState :=
  let s := { s with current_tag := some tag, current_attrs := some attrs }
  let s := if tag = "main" then { s with in_main := true } else s
  if s.in_main = true ∧ tag = "a" ∧ hasKey attrs "href" = true then
    { s with current_data := "" }
  else s

/-- `KubeJSAddonParser.handle_endtag`.  The emit condition mirrors the
source: still inside `main`, closing an `a` whose opening tag is the
tag most recently seen and carried an `href`; then the addon is emitted
only if the href and the trimmed accumulated text are non-empty and the
href contains the `/wiki/addons/` marker, with the site origin prefixed
to root-relative hrefs. -/
def handle_endtag (s : ParserState) (tag : String) : ParserState :=
  let s :=
    if s.in_main = true ∧ tag = "a" ∧ s.current_tag = some "a" ∧
        hasKey (s.current_attrs.getD []) "href" = true then
      let href := (getAttr (s.current_attrs.getD []) "href").getD ""
      let nm := pyStrip s.current_data
      if href ≠ "" ∧ nm ≠ "" ∧ strContains href "/wiki/addons/" = true then
        { s with addons := s.addons ++
            [{ name := nm,
               url := if pyStartswith href "/" then "https://kubejs.com" ++ href
                      else href }] }
      else s
    else s
  let s := if tag = "main" then { s with in_main := false } else s
  { s with current_tag := none, current_attrs := none }

/-- `KubeJSAddonParser.handle_data`. -/
def handle_data (s : ParserState) (txt : String) : ParserState :=
  if s.in_main = true ∧ s.current_tag = some "a" then
    { s with current_data := s.current_data ++ txt }
  else s

/-- Dispatch one event to the matching callback. -/
def parserStep (s : ParserState) : HtmlEvent → ParserState
  | .startTag tag attrs => handle_starttag s tag attrs
  | .endTag tag => handle_endtag s tag
  | .text txt => handle_data s txt

/-- `KubeJSAddonParser.feed` over an event stream. -/
def feed (s : ParserState) (events : List HtmlEvent) : ParserState :=
  events.foldl parserStep s

/-! ## Recipe records and the in-memory store (§3, §4.1) -/

/-- A recipe record.  `addon`/`addon_url` model the two optional keys
attached to modded recipes.  Python's `{}` payload in the IPC
`save_recipe` path is modelled by `emptyRecipe`. -/
structure Recipe where
  type : String
  output : String
  ingredients : List String
  addon : Option String
  addon_url : Option String
deriving DecidableEq, Repr

/-- Model of the `{}` default dictionary used by `handle_save_recipe`. -/
def emptyRecipe : Recipe :=
  { type := "", output := "", ingredients := [], addon := none,
    addon_url := none }

/-- The in-memory `recipes` dict, as an insertion-ordered association
list (Python dicts preserve insertion order). -/
abbrev Store := List (String × Recipe)

/-- Models `name in recipes` / `recipes[name]` read access. -/
def lookup : Store → String → Option Recipe
  | [], _ => none
  | (n, r) :: rest, k => if n = k then some r else lookup rest k

/-- Models `recipes[name] = recipe`: replace in place if the key exists
(keeping its position, as Python dicts do), else append. -/
def setKey : Store → String → Recipe → Store
  | [], k, v => [(k, v)]
  | (n, r) :: rest, k, v =>
    if n = k then (k, v) :: rest else (n, r) :: setKey rest k v

/-- Models `del recipes[name]`. -/
def eraseKey : Store → String → Store
  | [], _ => []
  | (n, r) :: rest, k =>
    if n = k then rest else (n, r) :: eraseKey rest k

/-- The fixed `recipe_types` menu shared by `create_recipe` and
`edit_recipe`. -/
def recipe_types : List String :=
  ["shaped", "shapeless", "smithing", "smelting", "blasting", "smoking",
   "campfire_cooking", "stonecutting", "brewing", "custom"]

/-- Models the ingredient list comprehension
`[item.strip() for item in s.split(',') if item.strip()]`. -/
def parseIngredients (s : String) : List String :=
  ((pySplit s ',').map pyStrip).filter (fun it => it ≠ "")

/-- Models `recipe_types[int(sel) - 1]` with the bounds check of
`create_recipe`; `none` is any of the two invalid-selection paths. -/
def parseSelection (sel : String) : Option String :=
  match pyInt? sel with
  | none => none
  | some i =>
    if 0 ≤ i - 1 ∧ i - 1 < 10 then recipe_types.get? (i - 1).toNat
    else none

/-- The record invariant stated in §3 of the specification: non-empty
output, a non-empty ingredients sequence, and `addon`/`addon_url`
present together or absent together. -/
def recordInvariant (r : Recipe) : Prop :=
  r.output ≠ "" ∧ r.ingredients ≠ [] ∧ (r.addon = none ↔ r.addon_url = none)

instance (r : Recipe) : Decidable (recordInvariant r) := by
  unfold recordInvariant; infer_instance

/-- Every record in the store satisfies the record invariant. -/
def storeInvariant (s : Store) : Prop :=
  ∀ p ∈ s, recordInvariant p.2

instance (s : Store) : Decidable (storeInvariant s) := by
  unfold storeInvariant; infer_instance

/-! ## The menu-surface operations (`create_recipe`, `edit_recipe`,
`delete_recipe`) as store transformers.  Each returns the new store
(unchanged on every early-return path) together with the error that was
printed, if any.  User input is `strip()`-ped at the prompt in the
source, hence the `pyStrip` at each entry point. -/

/-- Error reported by the menu-surface `create_recipe`. -/
inductive CreateErr where
  | emptyName
  | duplicateName
  | invalidSelection
  | emptyOutput
  | emptyIngredients
  | noValidIngredients
deriving DecidableEq, Repr

/-- `create_recipe` from the source.  `modded` is the addon selected by
`choose_recipe_type` (the source sets `is_modded` true only together
with a selected addon). -/
def create_recipe (store : Store) (rawName : String) (modded : Option Addon)
    (selection output ingredientsInput : String) : Store × Option CreateErr :=
  let nm := pyStrip rawName
  if nm = "" then (store, some .emptyName)
  else if (lookup store nm).isSome then (store, some .duplicateName)
  else
    match parseSelection (pyStrip selection) with
    | none => (store, some .invalidSelection)
    | some rtype =>
      let out := pyStrip output
      if out = "" then (store, some .emptyOutput)
      else
        let ii := pyStrip ingredientsInput
        if ii = "" then (store, some .emptyIngredients)
        else
          let ingredients := parseIngredients ii
          if ingredients = [] then (store, some .noValidIngredients)
          else
            let recipe : Recipe :=
              { type := rtype, output := out, ingredients := ingredients,
                addon := modded.map Addon.name,
                addon_url := modded.map Addon.url }
            (setKey store nm recipe, none)

/-- Error reported by the form-surface `RecipeManagerApp.add_recipe`. -/
inductive AddErr where
  | emptyName
  | duplicateName
  | emptyType
  | emptyOutput
  | emptyIngredients
  | noValidIngredients
  | noAddonSelected
deriving DecidableEq, Repr

/-- `RecipeManagerApp.add_recipe` from the source (form surface), with
the addon resolved from the combo selection passed as `addonInfo`. -/
def add_recipe (store : Store) (rawName rawType rawOutput rawIngredients : String)
    (isModded : Bool) (addonInfo : Option Addon) : Store × Option AddErr :=
  let nm := pyStrip rawName
  let rtype := pyStrip rawType
  let out := pyStrip rawOutput
  let ii := pyStrip rawIngredients
  if nm = "" then (store, some .emptyName)
  else if (lookup store nm).isSome then (store, some .duplicateName)
  else if rtype = "" then (store, some .emptyType)
  else if out = "" then (store, some .emptyOutput)
  else if ii = "" then (store, some .emptyIngredients)
  else
    let ingredients := parseIngredients ii
    if ingredients = [] then (store, some .noValidIngredients)
    else if isModded = true ∧ addonInfo = none then
      (store, some .noAddonSelected)
    else
      let recipe : Recipe :=
        { type := rtype, output := out, ingredients := ingredients,
          addon := if isModded then addonInfo.map Addon.name else none,
          addon_url := if isModded then addonInfo.map Addon.url else none }
      (setKey store nm recipe, none)

/-- Error reported by the menu-surface `edit_recipe`. -/
inductive EditErr where
  | emptyName
  | notFound
deriving DecidableEq, Repr

/-- The type-selection step of `edit_recipe`: `0`, a blank line, an
unparseable entry or an out-of-range number all leave `recipe_type`
empty, which means keep the current type. -/
def editSelection (sel : String) : String :=
  if sel = "" then ""
  else
    match pyInt? sel with
    | none => ""
    | some i =>
      if i = 0 then ""
      else if 1 ≤ i ∧ i ≤ 10 then (recipe_types.get? (i - 1).toNat).getD ""
      else ""

/-- The `if recipe_type:` update step of `edit_recipe`. -/
def applyEditType (r : Recipe) (rtype : String) : Recipe :=
  if rtype ≠ "" then { r with type := rtype } else r

/-- The `if output:` update step of `edit_recipe`. -/
def applyEditOutput (r : Recipe) (out : String) : Recipe :=
  if out ≠ "" then { r with output := out } else r

/-- The `if ingredients_input:` update step of `edit_recipe` (keeps the
old list when no valid ingredient survives the parse). -/
def applyEditIngredients (r : Recipe) (ii : String) : Recipe :=
  if ii ≠ "" then
    if parseIngredients ii ≠ [] then { r with ingredients := parseIngredients ii }
    else r
  else r

/-- `edit_recipe` from the source: each provided field overwrites the
stored value only when non-empty after trimming (and for ingredients,
only when at least one valid item survives). -/
def edit_recipe (store : Store) (rawName selection output ingredientsInput :
    String) : Store × Option EditErr :=
  let nm := pyStrip rawName
  if nm = "" then (store, some .emptyName)
  else
    match lookup store nm with
    | none => (store, some .notFound)
    | some r =>
      (setKey store nm
        (applyEditIngredients
          (applyEditOutput
            (applyEditType r (editSelection (pyStrip selection)))
            (pyStrip output))
          (pyStrip ingredientsInput)), none)

/-- Error reported by the menu-surface `delete_recipe`. -/
inductive DeleteErr where
  | emptyName
  | notFound
  | cancelled
deriving DecidableEq, Repr

/-- `delete_recipe` from the source (menu surface, with its confirmation
prompt). -/
def delete_recipe (store : Store) (rawName confirm : String) :
    Store × Option DeleteErr :=
  let nm := pyStrip rawName
  if nm = "" then (store, some .emptyName)
  else if (lookup store nm).isNone then (store, some .notFound)
  else if toLowerStr (pyStrip confirm) ≠ "y" then (store, some .cancelled)
  else (eraseKey store nm, none)

/-- Error reported by the form-surface
`RecipeManagerApp.save_edited_recipe`. -/
inductive GuiEditErr where
  | invalidSelection
  | emptyType
  | emptyOutput
  | emptyIngredients
  | noValidIngredients
deriving DecidableEq, Repr

/-- `RecipeManagerApp.save_edited_recipe` from the source (form-surface
edit): the combo value is used unstripped for the membership check; the
three field entries are stripped and must all be non-empty (unlike the
menu edit, blanks are rejected rather than kept); on success the three
fields of the stored record are overwritten in place, the addon keys
untouched. -/
def save_edited_recipe (store : Store)
    (rawName rawType rawOutput rawIngredients : String) :
    Store × Option GuiEditErr :=
  if rawName = "" then (store, some .invalidSelection)
  else
    match lookup store rawName with
    | none => (store, some .invalidSelection)
    | some r =>
      let rtype := pyStrip rawType
      let out := pyStrip rawOutput
      let ii := pyStrip rawIngredients
      if rtype = "" then (store, some .emptyType)
      else if out = "" then (store, some .emptyOutput)
      else if ii = "" then (store, some .emptyIngredients)
      else
        let ing := parseIngredients ii
        if ing = [] then (store, some .noValidIngredients)
        else
          (setKey store rawName
            { r with type := rtype, output := out, ingredients := ing },
           none)

/-- `RecipeManagerApp.delete_recipe` from the source (form-surface
delete): the name comes from the listbox of existing recipes (used
unstripped), deletion happens only behind the yes/no confirmation.  The
returned flag records whether a deletion was performed. -/
def gui_delete_recipe (store : Store) (rawName : String) (confirm : Bool) :
    Store × Bool :=
  if rawName = "" then (store, false)
  else if confirm = false then (store, false)
  else (eraseKey store rawName, true)

/-! ## Serialization and search (§4.1 `search`) -/

/-- Models `json.dumps` on a plain string (escape-free strings, which is
what the record fields hold in the scenarios the claims range over). -/
def pyQuote (s : String) : String := "\"" ++ s ++ "\""

/-- Interleave a separator between list elements (the behaviour of
`", ".join`). -/
def joinSep (sep : String) : List String → String
  | [] => ""
  | [x] => x
  | x :: y :: xs => x ++ sep ++ joinSep sep (y :: xs)

/-- Models `json.dumps` on a list of strings with the default
`", "` separator. -/
def dumpsStrList (xs : List String) : String :=
  "[" ++ joinSep ", " (xs.map pyQuote) ++ "]"

/-- The optional-key tail of a serialized record: `addon` and
`addon_url` appear, in insertion order, only when present. -/
def dumpsOptTail (r : Recipe) : String :=
  (match r.addon with
   | none => ""
   | some a => ", \"addon\": " ++ pyQuote a) ++
  (match r.addon_url with
   | none => ""
   | some u => ", \"addon_url\": " ++ pyQuote u)

/-- Models `json.dumps(recipe)` for a record laid out in the key order
the program creates (`type`, `output`, `ingredients`, then the optional
addon keys).  Written fully right-associated so that the field values
are visible as direct infixes. -/
def dumps (r : Recipe) : String :=
  "\x7b\"type\": \"" ++
    (r.type ++
      ("\", \"output\": \"" ++
        (r.output ++
          ("\", \"ingredients\": " ++
            (dumpsStrList r.ingredients ++ (dumpsOptTail r ++ "\x7d"))))))

/-- The match condition stated by the specification: the (already
lowercased) term occurs in the lowercased name or in the lowercased
serialized record text. -/
def searchMatch (term nm : String) (r : Recipe) : Bool :=
  strContains (toLowerStr nm) term || strContains (toLowerStr (dumps r)) term

/-- The loop body of the menu-surface `search_recipe`: a name match
prints and `continue`s; otherwise a content match prints. -/
def searchLoop (term : String) : Store → List (String × Recipe)
  | [] => []
  | (nm, r) :: rest =>
    if strContains (toLowerStr nm) term = true then
      (nm, r) :: searchLoop term rest
    else if strContains (toLowerStr (dumps r)) term = true then
      (nm, r) :: searchLoop term rest
    else searchLoop term rest

/-- Outcome of the menu-surface `search_recipe`: the empty-store early
return, the empty-term rejection, or the printed matches in store
order. -/
inductive SearchOutcome where
  | noRecipes
  | emptyTerm
  | results (rs : List (String × Recipe))
deriving DecidableEq, Repr

/-- `search_recipe` from the source (menu surface): the term is
`strip()`-ped and lowercased at the prompt, rejected when empty. -/
def search_recipe (rawTerm : String) (store : Store) : SearchOutcome :=
  if store = [] then .noRecipes
  else
    let term := toLowerStr (pyStrip rawTerm)
    if term = "" then .emptyTerm
    else .results (searchLoop term store)

/-- The loop body of the IPC `handle_search_recipes`: name, type,
output, or whole-record match. -/
def ipcSearchLoop (term : String) : Store → List (String × Recipe)
  | [] => []
  | (nm, r) :: rest =>
    if (strContains (toLowerStr nm) term ||
        strContains (toLowerStr r.type) term ||
        strContains (toLowerStr r.output) term ||
        strContains (toLowerStr (dumps r)) term) = true then
      (nm, r) :: ipcSearchLoop term rest
    else ipcSearchLoop term rest

/-- `handle_search_recipes` from the source (IPC surface), reduced to
its decision: `none` is the `success: false` "search term is required"
response, `some rs` the result list of a successful search. -/
def handle_search_recipes (store : Store) (rawTerm : String) :
    Option (List (String × Recipe)) :=
  let term := toLowerStr rawTerm
  if term = "" then none
  else some (ipcSearchLoop term store)

/-! ## The backing file and `load_recipes` (§4.1 `load`) -/

/-- Contents of a file in the model: a recipe store serialized as
valid JSON, or bytes that `json.load` rejects (tagged so distinct
corrupted contents stay distinguishable). -/
inductive FileContent where
  | valid (store : Store)
  | invalid (raw : Nat)
deriving DecidableEq, Repr

/-- The directory, as an association list from file name to content. -/
abbrev FS := List (String × FileContent)

/-- Read a file. -/
def fsLookup : FS → String → Option FileContent
  | [], _ => none
  | (n, c) :: rest, k => if n = k then some c else fsLookup rest k

/-- Write (create or overwrite) a file. -/
def fsWrite : FS → String → FileContent → FS
  | [], k, v => [(k, v)]
  | (n, c) :: rest, k, v =>
    if n = k then (k, v) :: rest else (n, c) :: fsWrite rest k v

/-- Remove a file. -/
def fsErase : FS → String → FS
  | [], _ => []
  | (n, c) :: rest, k =>
    if n = k then fsErase rest k else (n, c) :: fsErase rest k

/-- Models `os.rename` (POSIX semantics: an existing destination is
replaced). -/
def fsRename (fs : FS) (src dst : String) : FS :=
  match fsLookup fs src with
  | none => fs
  | some c => fsWrite (fsErase fs src) dst c

/-- `RECIPES_FILE` from the default configuration. -/
def RECIPES_FILE : String := "recipes.json"

/-- The backup name `f"{RECIPES_FILE}.backup.{int(time.time())}"` used
for a corrupted recipe file; `now` is the integer Unix time in
seconds. -/
def backupName (now : Nat) : String :=
  RECIPES_FILE ++ ".backup." ++ toString now

/-- `load_recipes` from the source: missing file creates an empty one;
valid JSON populates the store; malformed content is renamed aside to
`backupName now` and replaced by an empty store.  Every path is total
(the source catches every exception), and the function returns the new
directory state together with the in-memory store. -/
def load_recipes (fs : FS) (now : Nat) : FS × Store :=
  match fsLookup fs RECIPES_FILE with
  | none => (fsWrite fs RECIPES_FILE (.valid []), [])
  | some (.valid s) => (fs, s)
  | some (.invalid _) =>
    let fs1 := fsRename fs RECIPES_FILE (backupName now)
    (fsWrite fs1 RECIPES_FILE (.valid []), [])

/-! ## The IPC surface (§4.4, §6) -/

/-- The fields of one decoded IPC request that the dispatcher and the
handlers read.  Absent JSON keys are `none` (Python `message.get`). -/
structure IpcMessage where
  action : Option String
  recipeName : Option String
  recipe : Option Recipe
  isNew : Bool
  searchTerm : Option String
  filePath : Option String
deriving DecidableEq, Repr

/-- One JSON response line.  The payload keys (`recipes`, `results`,
`recipeName`, ...) are elided; the `action`, `success` and `error` keys
are what the claims inspect.  The invalid-JSON response carries no
`action` key, hence the `Option`. -/
structure IpcResponse where
  action : Option String
  success : Bool
  error : Option String
deriving DecidableEq, Repr

/-- `handle_save_recipe` from the source: a missing or empty
`recipeName` is rejected; otherwise the supplied record is stored
unconditionally (no duplicate check, no validation) and the store is
saved.  The model treats the file write as succeeding. -/
def handle_save_recipe (store : Store) (m : IpcMessage) :
    Store × IpcResponse :=
  let recipeData := m.recipe.getD emptyRecipe
  let nm := m.recipeName.getD ""
  if nm = "" then
    (store, { action := some "recipe_saved", success := false,
              error := some "Recipe name is required" })
  else
    (setKey store nm recipeData,
     { action := some "recipe_saved", success := true, error := none })

/-- `handle_delete_recipe` from the source. -/
def handle_delete_recipe (store : Store) (m : IpcMessage) :
    Store × IpcResponse :=
  let nm := m.recipeName.getD ""
  if nm = "" then
    (store, { action := some "recipe_deleted", success := false,
              error := some "Recipe name is required" })
  else if (lookup store nm).isNone then
    (store, { action := some "recipe_deleted", success := false,
              error := some "Recipe not found" })
  else
    (eraseKey store nm,
     { action := some "recipe_deleted", success := true, error := none })

/-- The process state the IPC handlers touch: the directory, the
in-memory store, and the environment consumed by `load_recipes` and the
addon refresh (current times, cached addon database, pending fetch
outcome). -/
structure IpcState where
  fs : FS
  store : Store
  now : Nat
  addonsDb : List Addon
  addonsTs : Option Int
  dbNow : Int
  maxAge : Int
  fetchOutcome : FetchOutcome
deriving DecidableEq, Repr

/-- `handle_load_recipes` from the source, at the process level. -/
def handle_load_recipes_s (s : IpcState) : IpcState × IpcResponse :=
  ({ s with fs := (load_recipes s.fs s.now).1,
            store := (load_recipes s.fs s.now).2 },
   { action := some "recipes_loaded", success := true, error := none })

/-- `handle_save_recipe` at the process level: the store mutation plus
the `save_recipes` rewrite of the backing file on the success path. -/
def handle_save_recipe_s (s : IpcState) (m : IpcMessage) :
    IpcState × IpcResponse :=
  let st := (handle_save_recipe s.store m).1
  let r := (handle_save_recipe s.store m).2
  if r.success then
    ({ s with store := st, fs := fsWrite s.fs RECIPES_FILE (.valid st) }, r)
  else ({ s with store := st }, r)

/-- `handle_delete_recipe` at the process level. -/
def handle_delete_recipe_s (s : IpcState) (m : IpcMessage) :
    IpcState × IpcResponse :=
  let st := (handle_delete_recipe s.store m).1
  let r := (handle_delete_recipe s.store m).2
  if r.success then
    ({ s with store := st, fs := fsWrite s.fs RECIPES_FILE (.valid st) }, r)
  else ({ s with store := st }, r)

/-- `handle_search_recipes` at the process level (read-only). -/
def handle_search_recipes_s (s : IpcState) (m : IpcMessage) :
    IpcState × IpcResponse :=
  match handle_search_recipes s.store (m.searchTerm.getD "") with
  | none =>
    (s, { action := some "search_results", success := false,
          error := some "Search term is required" })
  | some _ =>
    (s, { action := some "search_results", success := true, error := none })

/-- `handle_export_recipes` from the source, at the process level. -/
def handle_export_recipes_s (s : IpcState) (m : IpcMessage) :
    IpcState × IpcResponse :=
  let fp := m.filePath.getD ""
  if fp = "" then
    (s, { action := some "recipes_exported", success := false,
          error := some "File path is required" })
  else
    ({ s with fs := fsWrite s.fs fp (.valid s.store) },
     { action := some "recipes_exported", success := true, error := none })

/-- Modelled from the spec: the body of `handle_fetch_addons` is missing
from the source file (its text is corrupted past line 1792); §4.4 says
the action delegates to the addon refresh of §4.2 and reports the
resulting list.  The addon database file is modelled by the
`addonsDb`/`addonsTs` fields. -/
def handle_fetch_addons_s (s : IpcState) : IpcState × IpcResponse :=
  let r := fetch_kubejs_addons s.addonsDb s.addonsTs s.dbNow s.maxAge
    s.fetchOutcome
  let s1 :=
    match r.persisted with
    | none => s
    | some l => { s with addonsDb := l, addonsTs := some s.dbNow }
  (s1, { action := some "addons_fetched", success := true, error := none })

/-- The response built for an action missing from the handler table. -/
def unknownActionResponse (m : IpcMessage) : IpcResponse :=
  { action := some "unknown_action", success := false,
    error := some ("Unknown action: " ++ (m.action.getD "None")) }

/-- The six dispatchable actions of `process_ipc_message` (`exit` is
intercepted earlier, in `handle_ipc_input`). -/
def knownActions : List String :=
  ["load_recipes", "save_recipe", "delete_recipe", "search_recipes",
   "export_recipes", "fetch_addons"]

/-- `process_ipc_message` from the source: dispatch on the `action`
field, with the unknown-action error response as the default. -/
def process_ipc_message (s : IpcState) (m : IpcMessage) :
    IpcState × IpcResponse :=
  if m.action = some "load_recipes" then handle_load_recipes_s s
  else if m.action = some "save_recipe" then handle_save_recipe_s s m
  else if m.action = some "delete_recipe" then handle_delete_recipe_s s m
  else if m.action = some "search_recipes" then handle_search_recipes_s s m
  else if m.action = some "export_recipes" then handle_export_recipes_s s m
  else if m.action = some "fetch_addons" then handle_fetch_addons_s s
  else (s, unknownActionResponse m)

/-- One line read from the IPC input stream: either text `json.loads`
rejects, or a decoded message. -/
inductive IpcLine where
  | malformed
  | msg (m : IpcMessage)
deriving DecidableEq, Repr

/-- The response printed for a line that is not valid JSON. -/
def invalidJsonResponse : IpcResponse :=
  { action := none, success := false, error := some "Invalid JSON" }

/-- `handle_ipc_input` from the source: one response per line, the
`exit` action stops reading (without a response), end of input stops
reading.  Returns the final state and the responses in output order. -/
def handle_ipc_input (s : IpcState) : List IpcLine → IpcState × List IpcResponse
  | [] => (s, [])
  | .malformed :: rest =>
    ((handle_ipc_input s rest).1,
     invalidJsonResponse :: (handle_ipc_input s rest).2)
  | .msg m :: rest =>
    if m.action = some "exit" then (s, [])
    else
      ((handle_ipc_input (process_ipc_message s m).1 rest).1,
       (process_ipc_message s m).2 ::
         (handle_ipc_input (process_ipc_message s m).1 rest).2)

/-- The number of input lines the loop answers: every line strictly
before the first `exit` message gets exactly one response. -/
def countUntilExit : List IpcLine → Nat
  | [] => 0
  | .malformed :: rest => countUntilExit rest + 1
  | .msg m :: rest =>
    if m.action = some "exit" then 0 else countUntilExit rest + 1

/-! ## Concrete sample data used by witnesses and counterexamples -/

/-- A sample well-formed recipe record. -/
def sampleRecipeA : Recipe :=
  { type := "shaped", output := "minecraft:cake",
    ingredients := ["minecraft:milk_bucket", "minecraft:egg"],
    addon := none, addon_url := none }

/-- A second, different well-formed recipe record. -/
def sampleRecipeB : Recipe :=
  { type := "shapeless", output := "minecraft:bread",
    ingredients := ["minecraft:wheat"], addon := none, addon_url := none }

/-- A record violating every part of the §3 invariant. -/
def badRecipe : Recipe :=
  { type := "shaped", output := "", ingredients := [],
    addon := some "KubeJS Create", addon_url := none }

/-- A one-record store satisfying the invariant. -/
def sampleStore : Store := [("cake", sampleRecipeA)]

/-- IPC `save_recipe` request for a name already present, flagged as a
new record. -/
def saveMsg : IpcMessage :=
  { action := some "save_recipe", recipeName := some "cake",
    recipe := some sampleRecipeB, isNew := true, searchTerm := none,
    filePath := none }

/-- IPC `save_recipe` request carrying an invariant-violating record. -/
def badSaveMsg : IpcMessage :=
  { action := some "save_recipe", recipeName := some "bad",
    recipe := some badRecipe, isNew := true, searchTerm := none,
    filePath := none }

/-- IPC request with an action outside the handler table. -/
def bogusMsg : IpcMessage :=
  { action := some "bogus", recipeName := none, recipe := none,
    isNew := true, searchTerm := none, filePath := none }

/-- A minimal process state for the IPC witnesses. -/
def ipcState0 : IpcState :=
  { fs := [], store := [], now := 0, addonsDb := [], addonsTs := none,
    dbNow := 0, maxAge := 7, fetchOutcome := .failure }

/-- Directory holding a corrupted recipe file plus an earlier backup
made at the same integer second (5). -/
def c8fs : FS :=
  [(RECIPES_FILE, .invalid 1), (backupName 5, .invalid 0)]

/-! ## Helper lemmas about the store -/

theorem setKey_lookup_self (s : Store) (k : String) (r : Recipe)
    (h : lookup s k = some r) : setKey s k r = s := by
  induction s with
  | nil => simp [lookup] at h
  | cons p rest ih =>
    obtain ⟨n, v⟩ := p
    by_cases hn : n = k
    · subst hn
      simp [lookup] at h
      simp [setKey, h]
    · simp only [lookup, if_neg hn] at h
      simp [setKey, hn, ih h]

theorem lookup_recordInvariant (s : Store) (k : String) (r : Recipe)
    (hs : storeInvariant s) (h : lookup s k = some r) : recordInvariant r := by
  induction s with
  | nil => simp [lookup] at h
  | cons p rest ih =>
    obtain ⟨n, v⟩ := p
    by_cases hn : n = k
    · simp only [lookup, if_pos hn, Option.some.injEq] at h
      exact h ▸ hs (n, v) (List.mem_cons_self _ _)
    · simp only [lookup, if_neg hn] at h
      exact ih (fun q hq => hs q (List.mem_cons_of_mem _ hq)) h

theorem setKey_storeInvariant (s : Store) (k : String) (v : Recipe)
    (hs : storeInvariant s) (hv : recordInvariant v) :
    storeInvariant (setKey s k v) := by
  induction s with
  | nil =>
    intro p hp
    simp [setKey] at hp
    rw [hp]
    exact hv
  | cons q rest ih =>
    obtain ⟨n, w⟩ := q
    intro p hp
    by_cases hn : n = k
    · simp only [setKey, if_pos hn, List.mem_cons] at hp
      rcases hp with h1 | h2
      · rw [h1]; exact hv
      · exact hs p (List.mem_cons_of_mem _ h2)
    · simp only [setKey, if_neg hn, List.mem_cons] at hp
      rcases hp with h1 | h2
      · rw [h1]; exact hs (n, w) (List.mem_cons_self _ _)
      · exact ih (fun q hq => hs q (List.mem_cons_of_mem _ hq)) p h2

theorem eraseKey_storeInvariant (s : Store) (k : String)
    (hs : storeInvariant s) : storeInvariant (eraseKey s k) := by
  induction s with
  | nil => intro p hp; simp [eraseKey] at hp
  | cons q rest ih =>
    obtain ⟨n, w⟩ := q
    intro p hp
    by_cases hn : n = k
    · simp only [eraseKey, if_pos hn] at hp
      exact hs p (List.mem_cons_of_mem _ hp)
    · simp only [eraseKey, if_neg hn, List.mem_cons] at hp
      rcases hp with h1 | h2
      · rw [h1]; exact hs (n, w) (List.mem_cons_self _ _)
      · exact ih (fun q hq => hs q (List.mem_cons_of_mem _ hq)) p h2

/-! ## C10: the blank edit -/

/-- C10.  For every record present in the store, an edit in which every
provided field is blank after trimming leaves the store — and hence that
record — exactly as it was: `edit_recipe` either takes one of its
error early returns (store untouched) or rewrites the looked-up record
unchanged. -/
theorem c10_blank_edit_preserves (store : Store)
    (rawName sel out ii : String) (hs : pyStrip sel = "")
    (ho : pyStrip out = "") (hi : pyStrip ii = "") :
    (edit_recipe store rawName sel out ii).1 = store ∧
    lookup (edit_recipe store rawName sel out ii).1 (pyStrip rawName) =
      lookup store (pyStrip rawName) := by
  have h1 : (edit_recipe store rawName sel out ii).1 = store := by
    unfold edit_recipe
    by_cases hnm : pyStrip rawName = ""
    · simp [hnm]
    · cases hl : lookup store (pyStrip rawName) with
      | none => simp [hnm, hl]
      | some r =>
        have hsel : editSelection "" = "" := rfl
        have ht : ∀ x : Recipe, applyEditType x "" = x := fun _ => rfl
        have hout : ∀ x : Recipe, applyEditOutput x "" = x := fun _ => rfl
        have hing : ∀ x : Recipe, applyEditIngredients x "" = x := fun _ => rfl
        simp [hnm, hl, hs, ho, hi, hsel, ht, hout, hing,
          setKey_lookup_self store (pyStrip rawName) r hl]
  exact ⟨h1, by rw [h1]⟩

/-- Witness for C10 at a concrete store and blank inputs. -/
theorem c10_blank_edit_preserves_witness :
    (edit_recipe sampleStore "cake" "" "  " "").1 = sampleStore ∧
    lookup (edit_recipe sampleStore "cake" "" "  " "").1 (pyStrip "cake") =
      lookup sampleStore (pyStrip "cake") :=
  c10_blank_edit_preserves sampleStore "cake" "" "  " ""
    (by decide) (by decide) (by decide)

/-! ## C3: duplicate names at creation -/

/-- Counterexample to C3 as stated: the IPC `save_recipe` action for a
new record (`isNew` true) with a name already present reports success
and replaces the stored record instead of failing with
`DuplicateName`. -/
theorem c3_counterexample :
    (handle_save_recipe sampleStore saveMsg).2.success = true ∧
    lookup (handle_save_recipe sampleStore saveMsg).1 "cake" =
      some sampleRecipeB ∧
    sampleRecipeB ≠ sampleRecipeA := by
  refine ⟨?_, ?_, ?_⟩ <;> decide

/-- C3 as amended.  On the menu (`create_recipe`) and form
(`add_recipe`) surfaces a create with an already-present name fails
with the duplicate-name error and leaves the store unchanged; the IPC
`save_recipe` action performs no duplicate check even for a new record
and unconditionally overwrites, reporting success. -/
theorem c3_amended (store : Store) (rawName : String) (r : Recipe)
    (modded : Option Addon) (sel out ii : String)
    (rawType rawOutput rawIngredients : String) (isModded : Bool)
    (addonInfo : Option Addon) (m : IpcMessage) (nm : String)
    (hname : pyStrip rawName ≠ "") (hdup : lookup store (pyStrip rawName) = some r)
    (hm : m.recipeName = some nm) (hnm : nm ≠ "") :
    create_recipe store rawName modded sel out ii =
      (store, some .duplicateName) ∧
    add_recipe store rawName rawType rawOutput rawIngredients isModded
      addonInfo = (store, some .duplicateName) ∧
    handle_save_recipe store m =
      (setKey store nm (m.recipe.getD emptyRecipe),
       { action := some "recipe_saved", success := true, error := none }) := by
  refine ⟨?_, ?_, ?_⟩
  · unfold create_recipe
    simp [hname, hdup]
  · unfold add_recipe
    simp [hname, hdup]
  · unfold handle_save_recipe
    simp [hm, hnm]

/-- Witness for the amended C3 at concrete inputs. -/
theorem c3_amended_witness :
    create_recipe sampleStore "cake" none "1" "x" "y" =
      (sampleStore, some .duplicateName) ∧
    add_recipe sampleStore "cake" "shaped" "x" "y" false none =
      (sampleStore, some .duplicateName) ∧
    handle_save_recipe sampleStore saveMsg =
      (setKey sampleStore "cake" (saveMsg.recipe.getD emptyRecipe),
       { action := some "recipe_saved", success := true, error := none }) :=
  c3_amended sampleStore "cake" sampleRecipeA none "1" "x" "y"
    "shaped" "x" "y" false none saveMsg "cake"
    (by decide) (by decide) (by decide) (by decide)

/-! ## C4: preservation of the record invariant -/

theorem recordInvariant_applyEditType (r : Recipe) (t : String)
    (h : recordInvariant r) : recordInvariant (applyEditType r t) := by
  unfold applyEditType
  by_cases ht : t ≠ ""
  · rw [if_pos ht]; exact ⟨h.1, h.2.1, h.2.2⟩
  · rw [if_neg ht]; exact h

theorem recordInvariant_applyEditOutput (r : Recipe) (o : String)
    (h : recordInvariant r) : recordInvariant (applyEditOutput r o) := by
  unfold applyEditOutput
  by_cases ho : o ≠ ""
  · rw [if_pos ho]; exact ⟨ho, h.2.1, h.2.2⟩
  · rw [if_neg ho]; exact h

theorem recordInvariant_applyEditIngredients (r : Recipe) (ii : String)
    (h : recordInvariant r) : recordInvariant (applyEditIngredients r ii) := by
  unfold applyEditIngredients
  by_cases hii : ii ≠ ""
  · rw [if_pos hii]
    by_cases hi : parseIngredients ii ≠ []
    · rw [if_pos hi]; exact ⟨h.1, hi, h.2.2⟩
    · rw [if_neg hi]; exact h
  · rw [if_neg hii]; exact h

theorem create_recipe_storeInvariant (store : Store) (rawName : String)
    (modded : Option Addon) (sel out ii : String)
    (hs : storeInvariant store) :
    storeInvariant (create_recipe store rawName modded sel out ii).1 := by
  unfold create_recipe
  by_cases h1 : pyStrip rawName = ""
  · simpa [h1] using hs
  · by_cases h2 : (lookup store (pyStrip rawName)).isSome
    · simpa [h1, h2] using hs
    · cases hps : parseSelection (pyStrip sel) with
      | none => simpa [h1, h2, hps] using hs
      | some rtype =>
        by_cases h3 : pyStrip out = ""
        · simpa [h1, h2, hps, h3] using hs
        · by_cases h4 : pyStrip ii = ""
          · simpa [h1, h2, hps, h3, h4] using hs
          · by_cases h5 : parseIngredients (pyStrip ii) = []
            · simpa [h1, h2, hps, h3, h4, h5] using hs
            · have hrec : recordInvariant
                  { type := rtype, output := pyStrip out,
                    ingredients := parseIngredients (pyStrip ii),
                    addon := modded.map Addon.name,
                    addon_url := modded.map Addon.url } := by
                refine ⟨h3, h5, ?_⟩
                cases modded <;> simp
              simpa [h1, h2, hps, h3, h4, h5] using
                setKey_storeInvariant store (pyStrip rawName) _ hs hrec

theorem add_recipe_storeInvariant (store : Store)
    (rawName rawType rawOutput rawIngredients : String) (isModded : Bool)
    (addonInfo : Option Addon) (hs : storeInvariant store) :
    storeInvariant (add_recipe store rawName rawType rawOutput rawIngredients
      isModded addonInfo).1 := by
  unfold add_recipe
  by_cases h1 : pyStrip rawName = ""
  · simpa [h1] using hs
  · by_cases h2 : (lookup store (pyStrip rawName)).isSome
    · simpa [h1, h2] using hs
    · by_cases h3 : pyStrip rawType = ""
      · simpa [h1, h2, h3] using hs
      · by_cases h4 : pyStrip rawOutput = ""
        · simpa [h1, h2, h3, h4] using hs
        · by_cases h5 : pyStrip rawIngredients = ""
          · simpa [h1, h2, h3, h4, h5] using hs
          · by_cases h6 : parseIngredients (pyStrip rawIngredients) = []
            · simpa [h1, h2, h3, h4, h5, h6] using hs
            · by_cases h7 : isModded = true ∧ addonInfo = none
              · simpa [h1, h2, h3, h4, h5, h6, h7] using hs
              · have hrec : recordInvariant
                    { type := pyStrip rawType, output := pyStrip rawOutput,
                      ingredients := parseIngredients (pyStrip rawIngredients),
                      addon := if isModded then addonInfo.map Addon.name
                               else none,
                      addon_url := if isModded then addonInfo.map Addon.url
                                   else none } := by
                  refine ⟨h4, h6, ?_⟩
                  cases isModded <;> cases addonInfo <;> simp
                simpa [h1, h2, h3, h4, h5, h6, h7] using
                  setKey_storeInvariant store (pyStrip rawName) _ hs hrec

theorem edit_recipe_storeInvariant (store : Store)
    (rawName sel out ii : String) (hs : storeInvariant store) :
    storeInvariant (edit_recipe store rawName sel out ii).1 := by
  unfold edit_recipe
  by_cases h1 : pyStrip rawName = ""
  · simpa [h1] using hs
  · cases hl : lookup store (pyStrip rawName) with
    | none => simpa [h1, hl] using hs
    | some r =>
      have hr := lookup_recordInvariant store (pyStrip rawName) r hs hl
      have hrec := recordInvariant_applyEditIngredients _ (pyStrip ii)
        (recordInvariant_applyEditOutput _ (pyStrip out)
          (recordInvariant_applyEditType r (editSelection (pyStrip sel)) hr))
      simpa [h1, hl] using
        setKey_storeInvariant store (pyStrip rawName) _ hs hrec

theorem delete_recipe_storeInvariant (store : Store)
    (rawName confirm : String) (hs : storeInvariant store) :
    storeInvariant (delete_recipe store rawName confirm).1 := by
  unfold delete_recipe
  by_cases h1 : pyStrip rawName = ""
  · simpa [h1] using hs
  · by_cases h2 : (lookup store (pyStrip rawName)).isNone
    · simpa [h1, h2] using hs
    · by_cases h3 : toLowerStr (pyStrip confirm) ≠ "y"
      · simpa [h1, h2, h3] using hs
      · simpa [h1, h2, h3] using
          eraseKey_storeInvariant store (pyStrip rawName) hs

theorem save_edited_recipe_storeInvariant (store : Store)
    (rawName rawType rawOutput rawIngredients : String)
    (hs : storeInvariant store) :
    storeInvariant (save_edited_recipe store rawName rawType rawOutput
      rawIngredients).1 := by
  unfold save_edited_recipe
  by_cases h1 : rawName = ""
  · simpa [h1] using hs
  · cases hl : lookup store rawName with
    | none => simpa [h1, hl] using hs
    | some r =>
      have hr := lookup_recordInvariant store rawName r hs hl
      by_cases h2 : pyStrip rawType = ""
      · simpa [h1, hl, h2] using hs
      · by_cases h3 : pyStrip rawOutput = ""
        · simpa [h1, hl, h2, h3] using hs
        · by_cases h4 : pyStrip rawIngredients = ""
          · simpa [h1, hl, h2, h3, h4] using hs
          · by_cases h5 : parseIngredients (pyStrip rawIngredients) = []
            · simpa [h1, hl, h2, h3, h4, h5] using hs
            · have hrec : recordInvariant
                  { type := pyStrip rawType, output := pyStrip rawOutput,
                    ingredients := parseIngredients (pyStrip rawIngredients),
                    addon := r.addon, addon_url := r.addon_url } :=
                ⟨h3, h5, hr.2.2⟩
              simpa [h1, hl, h2, h3, h4, h5] using
                setKey_storeInvariant store rawName _ hs hrec

theorem gui_delete_recipe_storeInvariant (store : Store) (rawName : String)
    (confirm : Bool) (hs : storeInvariant store) :
    storeInvariant (gui_delete_recipe store rawName confirm).1 := by
  unfold gui_delete_recipe
  by_cases h1 : rawName = ""
  · simpa [h1] using hs
  · by_cases h2 : confirm = false
    · simpa [h1, h2] using hs
    · simpa [h1, h2] using eraseKey_storeInvariant store rawName hs

theorem handle_delete_recipe_storeInvariant (store : Store) (m : IpcMessage)
    (hs : storeInvariant store) :
    storeInvariant (handle_delete_recipe store m).1 := by
  unfold handle_delete_recipe
  by_cases h1 : m.recipeName.getD "" = ""
  · simpa [h1] using hs
  · by_cases h2 : (lookup store (m.recipeName.getD "")).isNone
    · simpa [h1, h2] using hs
    · simpa [h1, h2] using
        eraseKey_storeInvariant store (m.recipeName.getD "") hs

/-- Counterexample to C4 as stated: the IPC `save_recipe` action stores
the supplied record without validation, so one `save_recipe` request
breaks the record invariant on a store that satisfied it. -/
theorem c4_counterexample :
    storeInvariant sampleStore ∧
    ¬ storeInvariant (handle_save_recipe sampleStore badSaveMsg).1 := by
  constructor <;> decide

/-- C4 as amended.  Create on the menu and form surfaces, edit on the
menu and form surfaces, delete on the menu and form surfaces, and the
IPC `delete_recipe` action — every mutating operation except the IPC
`save_recipe` action — preserve the record invariant; `save_recipe`
stores the supplied record unvalidated and is excluded. -/
theorem c4_amended (store : Store) (rawName : String) (modded : Option Addon)
    (sel out ii : String) (rawType rawOutput rawIngredients : String)
    (isModded : Bool) (addonInfo : Option Addon)
    (eName eSel eOut eIi : String)
    (gName gType gOut gIi : String) (dName dConfirm : String)
    (gdName : String) (gdConfirm : Bool)
    (m : IpcMessage) (hs : storeInvariant store) :
    storeInvariant (create_recipe store rawName modded sel out ii).1 ∧
    storeInvariant (add_recipe store rawName rawType rawOutput rawIngredients
      isModded addonInfo).1 ∧
    storeInvariant (edit_recipe store eName eSel eOut eIi).1 ∧
    storeInvariant (save_edited_recipe store gName gType gOut gIi).1 ∧
    storeInvariant (delete_recipe store dName dConfirm).1 ∧
    storeInvariant (gui_delete_recipe store gdName gdConfirm).1 ∧
    storeInvariant (handle_delete_recipe store m).1 :=
  ⟨create_recipe_storeInvariant store rawName modded sel out ii hs,
   add_recipe_storeInvariant store rawName rawType rawOutput rawIngredients
     isModded addonInfo hs,
   edit_recipe_storeInvariant store eName eSel eOut eIi hs,
   save_edited_recipe_storeInvariant store gName gType gOut gIi hs,
   delete_recipe_storeInvariant store dName dConfirm hs,
   gui_delete_recipe_storeInvariant store gdName gdConfirm hs,
   handle_delete_recipe_storeInvariant store m hs⟩

/-- Witness for the amended C4 at a concrete store and inputs. -/
theorem c4_amended_witness :
    storeInvariant (create_recipe sampleStore "loaf" none "2" "minecraft:bread"
      "minecraft:wheat").1 ∧
    storeInvariant (add_recipe sampleStore "loaf" "shapeless" "minecraft:bread"
      "minecraft:wheat" false none).1 ∧
    storeInvariant (edit_recipe sampleStore "cake" "" "minecraft:torte" "").1 ∧
    storeInvariant (save_edited_recipe sampleStore "cake" "shaped"
      "minecraft:torte" "minecraft:sugar, minecraft:egg").1 ∧
    storeInvariant (delete_recipe sampleStore "cake" "y").1 ∧
    storeInvariant (gui_delete_recipe sampleStore "cake" true).1 ∧
    storeInvariant (handle_delete_recipe sampleStore saveMsg).1 :=
  c4_amended sampleStore "loaf" none "2" "minecraft:bread" "minecraft:wheat"
    "shapeless" "minecraft:bread" "minecraft:wheat" false none
    "cake" "" "minecraft:torte" ""
    "cake" "shaped" "minecraft:torte" "minecraft:sugar, minecraft:egg"
    "cake" "y" "cake" true saveMsg (by decide)

/-! ## C1 and C2: the addon-cache refresh policy -/

theorem fsLookup_fsWrite_self (fs : FS) (k : String) (v : FileContent) :
    fsLookup (fsWrite fs k v) k = some v := by
  induction fs with
  | nil => simp [fsWrite, fsLookup]
  | cons p rest ih =>
    obtain ⟨n, c⟩ := p
    by_cases hn : n = k
    · simp [fsWrite, fsLookup, hn]
    · simp [fsWrite, fsLookup, hn, ih]

theorem fsLookup_fsWrite_other (fs : FS) (k nm : String) (v : FileContent)
    (h : nm ≠ k) : fsLookup (fsWrite fs k v) nm = fsLookup fs nm := by
  induction fs with
  | nil => simp [fsWrite, fsLookup, Ne.symm h]
  | cons p rest ih =>
    obtain ⟨n, c⟩ := p
    by_cases hn : n = k
    · subst hn
      simp [fsWrite, fsLookup, Ne.symm h]
    · simp [fsWrite, fsLookup, hn, ih]

theorem fsLookup_fsErase_other (fs : FS) (k nm : String) (h : nm ≠ k) :
    fsLookup (fsErase fs k) nm = fsLookup fs nm := by
  induction fs with
  | nil => simp [fsErase]
  | cons p rest ih =>
    obtain ⟨n, c⟩ := p
    by_cases hn : n = k
    · subst hn
      simp [fsErase, fsLookup, Ne.symm h, ih]
    · simp [fsErase, fsLookup, hn, ih]

theorem backupName_ne_recipes (now : Nat) : backupName now ≠ RECIPES_FILE := by
  intro he
  have hl := congrArg String.length he
  rw [backupName, String.length_append, String.length_append] at hl
  have h8 : (".backup." : String).length = 8 := rfl
  rw [h8] at hl
  omega

/-- Counterexample to C8 as stated: the backup suffix is the integer
Unix time in seconds, which does not guarantee uniqueness — a second
corrupt load within the same second renames onto the existing backup
name, overwriting the earlier backup's bytes. -/
theorem c8_counterexample :
    fsLookup c8fs (backupName 5) = some (.invalid 0) ∧
    fsLookup (load_recipes c8fs 5).1 (backupName 5) = some (.invalid 1) := by
  constructor <;> decide

/-- C8 as amended.  On malformed content `load_recipes` does not raise
(it is total), leaves the in-memory store empty, renames the original
bytes to the backup name suffixed with the current integer second,
resets the recipe file to an empty store, and touches no other file —
but the suffix is only unique across distinct seconds, so a backup made
at the same integer second is overwritten rather than preserved. -/
theorem c8_amended (fs : FS) (now : Nat) (raw : Nat)
    (h : fsLookup fs RECIPES_FILE = some (.invalid raw)) :
    (load_recipes fs now).2 = [] ∧
    fsLookup (load_recipes fs now).1 (backupName now) = some (.invalid raw) ∧
    fsLookup (load_recipes fs now).1 RECIPES_FILE = some (.valid []) ∧
    (∀ nm, nm ≠ RECIPES_FILE → nm ≠ backupName now →
      fsLookup (load_recipes fs now).1 nm = fsLookup fs nm) := by
  have hbr := backupName_ne_recipes now
  unfold load_recipes
  rw [h]
  refine ⟨rfl, ?_, ?_, ?_⟩
  · rw [fsLookup_fsWrite_other _ _ _ _ hbr]
    unfold fsRename
    rw [h, fsLookup_fsWrite_self]
  · rw [fsLookup_fsWrite_self]
  · intro nm h1 h2
    rw [fsLookup_fsWrite_other _ _ _ _ h1]
    unfold fsRename
    rw [h, fsLookup_fsWrite_other _ _ _ _ h2, fsLookup_fsErase_other _ _ _ h1]

/-- Witness for the amended C8 on a concrete corrupted directory. -/
theorem c8_amended_witness :
    (load_recipes [(RECIPES_FILE, .invalid 7)] 42).2 = [] ∧
    fsLookup (load_recipes [(RECIPES_FILE, .invalid 7)] 42).1
      (backupName 42) = some (.invalid 7) ∧
    fsLookup (load_recipes [(RECIPES_FILE, .invalid 7)] 42).1
      RECIPES_FILE = some (.valid []) ∧
    (∀ nm, nm ≠ RECIPES_FILE → nm ≠ backupName 42 →
      fsLookup (load_recipes [(RECIPES_FILE, .invalid 7)] 42).1 nm =
        fsLookup [(RECIPES_FILE, .invalid 7)] nm) :=
  c8_amended [(RECIPES_FILE, .invalid 7)] 42 7 (by decide)

/-! ## C9: the IPC loop -/

theorem handle_ipc_input_length (lines : List IpcLine) :
    ∀ s : IpcState,
      (handle_ipc_input s lines).2.length = countUntilExit lines := by
  induction lines with
  | nil => intro s; rfl
  | cons l rest ih =>
    intro s
    cases l with
    | malformed => simp [handle_ipc_input, countUntilExit, ih]
    | msg m =>
      by_cases hm : m.action = some "exit"
      · simp [handle_ipc_input, countUntilExit, hm]
      · simp [handle_ipc_input, countUntilExit, hm, ih]

/-- C9.  An action outside the six-entry handler table produces the
`success: false` unknown-action response with the state untouched; the
loop answers every non-`exit` line with exactly one response and then
continues with the remaining lines; an `exit` message stops the loop;
and in total the loop emits exactly one response per line strictly
before the first `exit`. -/
theorem c9_ipc_dispatch (s : IpcState) (m : IpcMessage)
    (lines : List IpcLine) :
    ((∀ a ∈ knownActions, m.action ≠ some a) →
      process_ipc_message s m = (s, unknownActionResponse m) ∧
      (unknownActionResponse m).success = false ∧
      (unknownActionResponse m).action = some "unknown_action") ∧
    (m.action ≠ some "exit" →
      handle_ipc_input s (.msg m :: lines) =
        ((handle_ipc_input (process_ipc_message s m).1 lines).1,
         (process_ipc_message s m).2 ::
           (handle_ipc_input (process_ipc_message s m).1 lines).2)) ∧
    (m.action = some "exit" →
      handle_ipc_input s (.msg m :: lines) = (s, [])) ∧
    (handle_ipc_input s lines).2.length = countUntilExit lines := by
  refine ⟨?_, ?_, ?_, handle_ipc_input_length lines s⟩
  · intro hunk
    have h1 := hunk "load_recipes" (by simp [knownActions])
    have h2 := hunk "save_recipe" (by simp [knownActions])
    have h3 := hunk "delete_recipe" (by simp [knownActions])
    have h4 := hunk "search_recipes" (by simp [knownActions])
    have h5 := hunk "export_recipes" (by simp [knownActions])
    have h6 := hunk "fetch_addons" (by simp [knownActions])
    refine ⟨?_, rfl, rfl⟩
    unfold process_ipc_message
    simp [h1, h2, h3, h4, h5, h6]
  · intro hm
    simp [handle_ipc_input, hm]
  · intro hm
    simp [handle_ipc_input, hm]

/-- Witness for C9: a concrete unknown action gets the error response
with the state unchanged, the loop equations hold for it, and the
response count matches on a concrete line list. -/
theorem c9_ipc_dispatch_witness :
    (process_ipc_message ipcState0 bogusMsg =
       (ipcState0, unknownActionResponse bogusMsg) ∧
     (unknownActionResponse bogusMsg).success = false ∧
     (unknownActionResponse bogusMsg).action = some "unknown_action") ∧
    handle_ipc_input ipcState0 [.msg bogusMsg] =
      ((handle_ipc_input (process_ipc_message ipcState0 bogusMsg).1 []).1,
       (process_ipc_message ipcState0 bogusMsg).2 ::
         (handle_ipc_input (process_ipc_message ipcState0 bogusMsg).1 []).2) ∧
    (handle_ipc_input ipcState0 [.msg bogusMsg]).2.length =
      countUntilExit [.msg bogusMsg] :=
  ⟨(c9_ipc_dispatch ipcState0 bogusMsg []).1 (by decide),
   (c9_ipc_dispatch ipcState0 bogusMsg []).2.1 (by decide),
   (c9_ipc_dispatch ipcState0 bogusMsg [.msg bogusMsg]).2.2.2⟩

/-! ## C7: search semantics -/

theorem listIsPre_iff : ∀ (n h : List Char),
    listIsPre n h = true ↔ ∃ q, h = n ++ q
  | [], h => by simp [listIsPre]
  | a :: as, [] => by simp [listIsPre]
  | a :: as, b :: bs => by
    simp only [listIsPre, Bool.and_eq_true, decide_eq_true_eq]
    constructor
    · rintro ⟨hab, hpre⟩
      obtain ⟨q, hq⟩ := (listIsPre_iff as bs).1 hpre
      exact ⟨q, by rw [hab, hq]; rfl⟩
    · rintro ⟨q, hq⟩
      injection hq with h1 h2
      exact ⟨h1.symm, (listIsPre_iff as bs).2 ⟨q, h2⟩⟩

theorem listIsSub_iff : ∀ (n h : List Char),
    listIsSub n h = true ↔ ∃ p q, h = p ++ n ++ q
  | n, [] => by
    rw [listIsSub, listIsPre_iff]
    constructor
    · rintro ⟨q, hq⟩
      exact ⟨[], q, by simpa using hq⟩
    · rintro ⟨p, q, hq⟩
      obtain ⟨h1, hq2⟩ := List.append_eq_nil.mp hq.symm
      obtain ⟨hp, hn⟩ := List.append_eq_nil.mp h1
      exact ⟨[], by simp [hn]⟩
  | n, c :: rest => by
    rw [listIsSub]
    simp only [Bool.or_eq_true]
    rw [listIsPre_iff, listIsSub_iff n rest]
    constructor
    · rintro (⟨q, hq⟩ | ⟨p, q, hq⟩)
      · exact ⟨[], q, by simpa using hq⟩
      · exact ⟨c :: p, q, by simp [hq]⟩
    · rintro ⟨p, q, hq⟩
      cases p with
      | nil => exact Or.inl ⟨q, by simpa using hq⟩
      | cons x xs =>
        right
        injection hq with h1 h2
        exact ⟨xs, q, h2⟩

theorem listIsSub_trans (a b c : List Char) (h1 : listIsSub a b = true)
    (h2 : listIsSub b c = true) : listIsSub a c = true := by
  obtain ⟨s, t, rfl⟩ := (listIsSub_iff b c).1 h2
  obtain ⟨p, q, rfl⟩ := (listIsSub_iff a b).1 h1
  exact (listIsSub_iff a _).2 ⟨s ++ p, q ++ t, by simp⟩

theorem strContains_dumps_of_type (r : Recipe) (term : String)
    (h : strContains (toLowerStr r.type) term = true) :
    strContains (toLowerStr (dumps r)) term = true := by
  unfold strContains at h ⊢
  refine listIsSub_trans _ _ _ h ?_
  rw [listIsSub_iff]
  refine ⟨(toLowerStr "\x7b\"type\": \"").data,
    (toLowerStr ("\", \"output\": \"" ++ (r.output ++ ("\", \"ingredients\": " ++
      (dumpsStrList r.ingredients ++ (dumpsOptTail r ++ "\x7d")))))).data, ?_⟩
  simp [dumps, toLowerStr, String.data_append]

theorem strContains_dumps_of_output (r : Recipe) (term : String)
    (h : strContains (toLowerStr r.output) term = true) :
    strContains (toLowerStr (dumps r)) term = true := by
  unfold strContains at h ⊢
  refine listIsSub_trans _ _ _ h ?_
  rw [listIsSub_iff]
  refine ⟨(toLowerStr ("\x7b\"type\": \"" ++ (r.type ++ "\", \"output\": \""))).data,
    (toLowerStr ("\", \"ingredients\": " ++
      (dumpsStrList r.ingredients ++ (dumpsOptTail r ++ "\x7d")))).data, ?_⟩
  simp [dumps, toLowerStr, String.data_append]

theorem ipc_search_condition (term nm : String) (r : Recipe) :
    (strContains (toLowerStr nm) term || strContains (toLowerStr r.type) term ||
     strContains (toLowerStr r.output) term ||
     strContains (toLowerStr (dumps r)) term) = searchMatch term nm r := by
  unfold searchMatch
  cases hn : strContains (toLowerStr nm) term
  · cases hd : strContains (toLowerStr (dumps r)) term
    · cases ht : strContains (toLowerStr r.type) term
      · cases ho : strContains (toLowerStr r.output) term
        · simp [hn, hd, ht, ho]
        · exact absurd (strContains_dumps_of_output r term ho) (by simp [hd])
      · exact absurd (strContains_dumps_of_type r term ht) (by simp [hd])
    · simp [hn, hd]
  · simp [hn]

theorem searchLoop_eq_filter (term : String) : ∀ store : Store,
    searchLoop term store =
      store.filter (fun p => searchMatch term p.1 p.2)
  | [] => rfl
  | (nm, r) :: rest => by
    rw [searchLoop]
    cases hn : strContains (toLowerStr nm) term
    · cases hc : strContains (toLowerStr (dumps r)) term
      · simp [hn, hc, searchMatch, List.filter_cons,
          searchLoop_eq_filter term rest]
      · simp [hn, hc, searchMatch, List.filter_cons,
          searchLoop_eq_filter term rest]
    · simp [hn, searchMatch, List.filter_cons, searchLoop_eq_filter term rest]

theorem ipcSearchLoop_eq_filter (term : String) : ∀ store : Store,
    ipcSearchLoop term store =
      store.filter (fun p => searchMatch term p.1 p.2)
  | [] => rfl
  | (nm, r) :: rest => by
    rw [ipcSearchLoop, ipc_search_condition]
    cases hm : searchMatch term nm r
    · simp [hm, List.filter_cons, ipcSearchLoop_eq_filter term rest]
    · simp [hm, List.filter_cons, ipcSearchLoop_eq_filter term rest]

/-- C7.  Both search surfaces reject an empty term, and for a non-empty
term return exactly the store entries whose lowercased name or
lowercased serialized record text contains the term — as a `filter`, so
no non-matching record appears, each entry appears at most once, and
store iteration order is kept. -/
theorem c7_search_exact (rawTerm : String) (store : Store) :
    (store = [] → search_recipe rawTerm store = .noRecipes) ∧
    (store ≠ [] → toLowerStr (pyStrip rawTerm) = "" →
      search_recipe rawTerm store = .emptyTerm) ∧
    (store ≠ [] → toLowerStr (pyStrip rawTerm) ≠ "" →
      search_recipe rawTerm store = .results (store.filter
        (fun p => searchMatch (toLowerStr (pyStrip rawTerm)) p.1 p.2))) ∧
    (toLowerStr rawTerm = "" → handle_search_recipes store rawTerm = none) ∧
    (toLowerStr rawTerm ≠ "" →
      handle_search_recipes store rawTerm = some (store.filter
        (fun p => searchMatch (toLowerStr rawTerm) p.1 p.2))) := by
  refine ⟨?_, ?_, ?_, ?_, ?_⟩
  · intro h; simp [search_recipe, h]
  · intro h1 h2; simp [search_recipe, h1, h2]
  · intro h1 h2
    simp [search_recipe, h1, h2, searchLoop_eq_filter]
  · intro h; simp [handle_search_recipes, h]
  · intro h
    simp [handle_search_recipes, h, ipcSearchLoop_eq_filter]

/-- Witness for C7: searching a concrete store for `CAKE` on both
surfaces returns exactly the matching entry, and the empty term is
rejected. -/
theorem c7_search_exact_witness :
    search_recipe "CAKE" sampleStore = .results (sampleStore.filter
      (fun p => searchMatch (toLowerStr (pyStrip "CAKE")) p.1 p.2)) ∧
    handle_search_recipes sampleStore "" = none ∧
    handle_search_recipes sampleStore "cake" = some (sampleStore.filter
      (fun p => searchMatch (toLowerStr "cake") p.1 p.2)) :=
  ⟨(c7_search_exact "CAKE" sampleStore).2.2.1 (by decide) (by decide),
   (c7_search_exact "" sampleStore).2.2.2.1 (by decide),
   (c7_search_exact "cake" sampleStore).2.2.2.2 (by decide)⟩

/-! ## C5 and C6: the wiki scanner -/

/-- C5.  A main-content region holding one addon link, with a second
addon-marker link outside the region: the scanner emits exactly the
in-region addon, named by the link's stripped text, with the site
origin prefixed to a root-relative href and an absolute href kept
as-is. -/
theorem c5_scanner_single_addon (d h d2 h2 : String)
    (hh : strContains h "/wiki/addons/" = true) (hd : pyStrip d ≠ "") :
    (feed initParserState
      [.startTag "main" [], .startTag "a" [("href", h)], .text d,
       .endTag "a", .endTag "main", .startTag "a" [("href", h2)], .text d2,
       .endTag "a"]).addons =
      [{ name := pyStrip d,
         url := if pyStartswith h "/" = true then "https://kubejs.com" ++ h
                else h }] := by
  have hne : h ≠ "" := by
    intro he
    rw [he] at hh
    exact absurd hh (by decide)
  have hea : ("" : String) ++ d = d := rfl
  simp [feed, parserStep, handle_starttag, handle_endtag, handle_data,
    initParserState, hasKey, getAttr, hea, hh, hd, hne]

/-- Witness for C5 on the spec's own scenario strings. -/
theorem c5_scanner_single_addon_witness :
    (feed initParserState
      [.startTag "main" [], .startTag "a" [("href", "/wiki/addons/foo")],
       .text "Foo", .endTag "a", .endTag "main",
       .startTag "a" [("href", "/other")], .text "Bar", .endTag "a"]).addons =
      [{ name := pyStrip "Foo",
         url := if pyStartswith "/wiki/addons/foo" "/" = true then
                  "https://kubejs.com" ++ "/wiki/addons/foo"
                else "/wiki/addons/foo" }] :=
  c5_scanner_single_addon "Foo" "/wiki/addons/foo" "Bar" "/other"
    (by decide) (by decide)

/-- Counterexample to C6 as stated: with nested markup inside the link
(`<a href=...>Fo<b></b>o</a>`), the text after the nested tag is not
accumulated — the candidate name stays `Fo`, not the full concatenation
`Foo` — and the close of the link emits nothing at all. -/
theorem c6_counterexample :
    (feed initParserState
      [.startTag "main" [], .startTag "a" [("href", "/wiki/addons/x")],
       .text "Fo", .startTag "b" [], .endTag "b", .text "o"]).current_data
        = "Fo" ∧
    ("Fo" : String) ≠ "Fo" ++ "o" ∧
    (feed initParserState
      [.startTag "main" [], .startTag "a" [("href", "/wiki/addons/x")],
       .text "Fo", .startTag "b" [], .endTag "b", .text "o", .endTag "a",
       .endTag "main"]).addons = [] := by
  refine ⟨?_, ?_, ?_⟩ <;> decide

theorem feed_text_accum : ∀ (ds : List String) (s : ParserState),
    s.in_main = true → s.current_tag = some "a" →
    (feed s (ds.map HtmlEvent.text)).current_data =
      ds.foldl (fun acc t => acc ++ t) s.current_data := by
  intro ds
  induction ds with
  | nil => intro s _ _; rfl
  | cons d rest ih =>
    intro s h1 h2
    have hd1 : (handle_data s d).in_main = true := by
      simp [handle_data, h1, h2]
    have hd2 : (handle_data s d).current_tag = some "a" := by
      simp [handle_data, h1, h2]
    have hd3 : (handle_data s d).current_data = s.current_data ++ d := by
      simp [handle_data, h1, h2]
    show (feed (handle_data s d) (rest.map HtmlEvent.text)).current_data = _
    rw [ih (handle_data s d) hd1 hd2, hd3]
    rfl

/-- C6 as amended.  While inside the region, for a link opened with an
href the accumulated candidate name is the concatenation of the text
content following the opening tag — as long as no nested tag intervenes;
text separated from the opening by nested markup is not accumulated
(and such a link emits no addon), as the counterexample shows. -/
theorem c6_amended (s : ParserState) (attrs : List (String × String))
    (ds : List String) (h1 : s.in_main = true)
    (h2 : hasKey attrs "href" = true) :
    (feed s (.startTag "a" attrs :: ds.map HtmlEvent.text)).current_data =
      String.join ds := by
  have hs1 : (handle_starttag s "a" attrs).in_main = true := by
    simp [handle_starttag, h1, h2]
  have hs2 : (handle_starttag s "a" attrs).current_tag = some "a" := by
    simp [handle_starttag, h1, h2]
  have hs3 : (handle_starttag s "a" attrs).current_data = "" := by
    simp [handle_starttag, h1, h2]
  show (feed (handle_starttag s "a" attrs)
    (ds.map HtmlEvent.text)).current_data = _
  rw [feed_text_accum ds _ hs1 hs2, hs3]
  rfl

/-- Witness for the amended C6: inside an open region, two consecutive
text events accumulate to their concatenation. -/
theorem c6_amended_witness :
    (feed (feed initParserState [.startTag "main" []])
      (.startTag "a" [("href", "/wiki/addons/x")] ::
        (["Fo", "o"].map HtmlEvent.text))).current_data =
      String.join ["Fo", "o"] :=
  c6_amended (feed initParserState [.startTag "main" []])
    [("href", "/wiki/addons/x")] ["Fo", "o"] (by decide) (by decide)

end KubeJS
